import Mathlib

/-!
Verification of the residual-demand traffic assignment engine
(`transportation.py`, `system_performance` and its nested helpers
`substep_assignment`, `write_edge_vol`, `write_final_vol`, `assignment`).

Times, volumes and capacities are modelled as rationals (the Python code
uses floating point; the claims under study are about control flow,
formulas and bounds, not rounding of binary floats).  Edge keys
`"{start}-{end}"` are modelled as pairs of naturals.
-/

namespace Transportation

/-- An edge of the in-memory network, with the mutable per-edge state used
by the assignment loop (columns of `edges_df` in the source). -/
structure Edge where
  uniqueid : Nat
  start_nid : Nat
  end_nid : Nat
  capacity : ℚ
  normal_capacity : ℚ
  fft : ℚ
  normal_fft : ℚ
  t_avg : ℚ
  vol_true : ℚ
  vol_tot : ℚ
  veh_current : ℚ
  deriving DecidableEq, Repr

/-- A raw edge row as read from the input edge table before load-time
processing (`edges_df` columns kept at line 922 of the source). -/
structure RawEdge where
  uniqueid : Nat
  start_nid : Nat
  end_nid : Nat
  length : ℚ
  maxspeed : ℚ
  capacity : ℚ
  deriving DecidableEq, Repr

/-- A node row (`nodes_df`): an id and planar coordinates. -/
structure Node where
  node_id : Nat
  lon : ℚ
  lat : ℚ
  deriving DecidableEq, Repr

/-- An OD-table row: one trip request
(`agent_id, origin_nid, destin_nid, hour, quarter`). -/
structure ODRow where
  agent_id : Nat
  origin_nid : Nat
  destin_nid : Nat
  hour : Nat
  quarter : Nat
  deriving DecidableEq, Repr

/-- The tuple `(agent_id, origin_nid, destin_nid)` under which the
source's `trip_info` dictionary stores a trip. -/
structure TripKey where
  agent_id : Nat
  origin_nid : Nat
  destin_nid : Nat
  deriving DecidableEq, Repr

/-- The key under which the source's `trip_info` dictionary stores a trip:
`(agent_id, origin_nid, destin_nid)`. -/
def tripKey (od : ODRow) : TripKey :=
  ⟨od.agent_id, od.origin_nid, od.destin_nid⟩

/-! ## Hourly closure application (source lines 639-651)

At the start of each hour of `assignment`: if the hour is in
`closure_hours`, each row of `closed_links` has its matching edges set to
`capacity = 1`, `fft = 36000`; otherwise every edge gets
`capacity = normal_capacity`, `fft = normal_fft`. -/

/-- Apply the closure table to one edge: an edge whose `uniqueid` is listed
in `closed_links` gets `capacity = 1` and `fft = 36000`; others are left
unchanged. -/
def applyClosure (closedIds : List Nat) (e : Edge) : Edge :=
  if e.uniqueid ∈ closedIds then { e with capacity := 1, fft := 36000 } else e

/-- Restore one edge to its normal state (`else` branch, lines 650-651). -/
def restoreNormal (e : Edge) : Edge :=
  { e with capacity := e.normal_capacity, fft := e.normal_fft }

/-- The per-hour edge-state update performed at the top of the hour loop
(lines 641-651). -/
def hourEdgeUpdate (closureHours : List Nat) (closedIds : List Nat)
    (hour : Nat) (edges : List Edge) : List Edge :=
  if hour ∈ closureHours then edges.map (applyClosure closedIds)
  else edges.map restoreNormal

/-! ## Path walking inside `substep_assignment` (source lines 403-457) -/

/-- The consecutive-pair list `zip(path, path[1:])` of a node path. -/
def pathEdges : List Nat → List (Nat × Nat)
  | a :: b :: rest => (a, b) :: pathEdges (b :: rest)
  | _ => []

/-- The residual record appended to `od_residual_ss_list` when an agent
stops mid-path: `(trip_stop, new_current_link, new_current_link_time)`
(agent/origin/destin are carried alongside by the caller). -/
structure Residual where
  trip_stop : Nat
  current_link : Nat × Nat
  current_link_time : ℚ
  deriving DecidableEq, Repr

/-- The state threaded through the edge-walking loop of one agent. -/
structure WalkState where
  remaining : ℚ
  used : ℚ
  vol : Nat × Nat → ℚ
  veh : Nat × Nat → ℚ
  stop : Option Nat
  residual : Option Residual

/-- Pointwise update of an edge-keyed dictionary. -/
def updFn (f : Nat × Nat → ℚ) (k : Nat × Nat) (x : ℚ) : Nat × Nat → ℚ :=
  fun k' => if k' = k then x else f k'

/-- The edge-walking loop body (source lines 416-448).  `tt` is
`edge_travel_time_dict`, `curLink` the agent's `current_link`, `si` the
`sample_interval`.  An edge is traversed while its travel time is strictly
below the remaining budget and below the 36000 sentinel; otherwise the
agent stops there, is recorded as residual anchored at that edge with the
remaining time, and the loop breaks. -/
def walkEdges (tt : Nat × Nat → ℚ) (curLink : Option (Nat × Nat)) (si : ℚ) :
    List (Nat × Nat) → WalkState → WalkState
  | [], st => st
  | e :: rest, st =>
    if tt e < st.remaining ∧ tt e < 36000 then
      walkEdges tt curLink si rest
        { remaining := st.remaining - tt e
          used := st.used + tt e
          vol := updFn st.vol e (st.vol e + si)
          veh := if curLink = some e then updFn st.veh e (st.veh e - si)
                 else st.veh
          stop := some e.2
          residual := none }
    else
      { st with
        veh := if curLink = some e then st.veh
               else updFn st.veh e (st.veh e + si)
        stop := some e.1
        residual := some ⟨e.1, e, st.remaining⟩ }

/-- Walk one agent's path: budget initialisation (line 412:
`3600 / quarter_counts + current_link_time`) followed by the edge loop. -/
def walkAgent (tt : Nat × Nat → ℚ) (curLink : Option (Nat × Nat))
    (curLinkTime : ℚ) (si : ℚ) (quarter_counts : ℚ)
    (vol veh : Nat × Nat → ℚ) (path : List Nat) : WalkState :=
  walkEdges tt curLink si (pathEdges path)
    { remaining := 3600 / quarter_counts + curLinkTime
      used := 0
      vol := vol
      veh := veh
      stop := none
      residual := none }

/-! ## Spec-side description of the walk (for refinement against C1)

These two functions follow the specification's words only: an agent
traverses an edge while its travel time is strictly below the remaining
budget and below the 36000 sentinel, and stops at the first edge where
this fails, anchored there with the remaining time. -/

/-- Modelled from the spec: the residual record (if any) produced by
walking an edge list with a given budget — the agent stops at the first
edge whose travel time is not strictly below the remaining budget or not
below 36000, anchored at that edge with the remaining time. -/
def specStop (tt : Nat × Nat → ℚ) : ℚ → List (Nat × Nat) → Option Residual
  | _, [] => none
  | rem, e :: rest =>
    if tt e < rem ∧ tt e < 36000 then specStop tt (rem - tt e) rest
    else some ⟨e.1, e, rem⟩

/-- Modelled from the spec: the list of edges actually traversed (each
consuming its travel time and receiving one `sample_interval` of volume)
before the agent stops or the path ends. -/
def specWalked (tt : Nat × Nat → ℚ) : ℚ → List (Nat × Nat) → List (Nat × Nat)
  | _, [] => []
  | rem, e :: rest =>
    if tt e < rem ∧ tt e < 36000 then e :: specWalked tt (rem - tt e) rest
    else []

end Transportation

namespace Transportation

/-! ## Theorems for claim C1 -/

/-- The walk loop refines the spec-side description: residual, volumes,
used time and remaining budget are all determined by the first failing
edge of the path. -/
theorem walkEdges_spec (tt : Nat × Nat → ℚ) (cl : Option (Nat × Nat))
    (si : ℚ) (es : List (Nat × Nat)) (st : WalkState)
    (hres : st.residual = none) :
    (walkEdges tt cl si es st).residual = specStop tt st.remaining es ∧
    (∀ k, (walkEdges tt cl si es st).vol k =
      st.vol k + si * (List.count k (specWalked tt st.remaining es) : ℚ)) ∧
    (walkEdges tt cl si es st).used =
      st.used + ((specWalked tt st.remaining es).map tt).sum ∧
    (walkEdges tt cl si es st).remaining =
      st.remaining - ((specWalked tt st.remaining es).map tt).sum := by
  induction es generalizing st with
  | nil =>
    simp [walkEdges, specStop, specWalked, hres]
  | cons e rest ih =>
    by_cases hc : tt e < st.remaining ∧ tt e < 36000
    · have h1 := ih
        { remaining := st.remaining - tt e,
          used := st.used + tt e,
          vol := updFn st.vol e (st.vol e + si),
          veh := if cl = some e then updFn st.veh e (st.veh e - si)
                 else st.veh,
          stop := some e.2,
          residual := none } rfl
      refine ⟨?_, ?_, ?_, ?_⟩
      · rw [walkEdges, if_pos hc, h1.1, specStop, if_pos hc]
      · intro k
        rw [walkEdges, if_pos hc, h1.2.1 k]
        show updFn st.vol e (st.vol e + si) k + _ = _
        rw [specWalked, if_pos hc]
        unfold updFn
        by_cases hk : k = e
        · subst hk
          rw [if_pos rfl, List.count_cons_self]
          push_cast
          ring
        · rw [if_neg hk, List.count_cons_of_ne hk]
      · rw [walkEdges, if_pos hc, h1.2.2.1]
        show st.used + tt e + _ = _
        rw [specWalked, if_pos hc, List.map_cons, List.sum_cons]
        ring
      · rw [walkEdges, if_pos hc, h1.2.2.2]
        show st.remaining - tt e - _ = _
        rw [specWalked, if_pos hc, List.map_cons, List.sum_cons]
        ring
    · rw [walkEdges, if_neg hc, specStop, if_neg hc, specWalked, if_neg hc]
      simp

/-- Claim C1 (amended): the agent's budget is
`3600/quarter_counts + current_link_time`; the path is walked edge by
edge, each traversed edge consuming its travel time and adding
`sample_interval` to its quarter volume, and the agent stops exactly at
the first edge whose travel time is not strictly below the remaining
budget or not below the 36000 sentinel, recorded as residual anchored at
that edge with the remaining time — whether or not that edge is the one
the agent was already on. -/
theorem substep_walk_semantics (tt : Nat × Nat → ℚ) (cl : Option (Nat × Nat))
    (clt si qc : ℚ) (vol veh : Nat × Nat → ℚ) (path : List Nat) :
    (walkAgent tt cl clt si qc vol veh path).residual =
      specStop tt (3600 / qc + clt) (pathEdges path) ∧
    (∀ k, (walkAgent tt cl clt si qc vol veh path).vol k =
      vol k +
        si * (List.count k (specWalked tt (3600 / qc + clt)
          (pathEdges path)) : ℚ)) ∧
    (walkAgent tt cl clt si qc vol veh path).used =
      ((specWalked tt (3600 / qc + clt) (pathEdges path)).map tt).sum := by
  have h := walkEdges_spec tt cl si (pathEdges path)
    { remaining := 3600 / qc + clt
      used := 0
      vol := vol
      veh := veh
      stop := none
      residual := none } rfl
  refine ⟨h.1, h.2.1, ?_⟩
  have := h.2.2.1
  simpa using this

/-- The concrete travel-time table for the C1 counterexample. -/
def ttC1 : Nat × Nat → ℚ :=
  fun k => if k = (1, 2) then 10 else if k = (2, 3) then 20 else 36000

/-- The all-zero edge dictionary. -/
def zeroDict : Nat × Nat → ℚ := fun _ => 0

/-- Counterexample to claim C1 as stated: an agent whose first edge
`(1,2)` is exactly the edge it was already on (`current_link = (1,2)`)
does NOT stop there: with budget `3600/4 + 5` it traverses `(1,2)` and
`(2,3)` and finishes with no residual record, while the claim says the
agent stops and is recorded as residual the moment the edge just entered
is the one it was already on. -/
theorem substep_walk_same_edge_counterexample :
    ttC1 (1, 2) < 3600 / 4 + 5 ∧ ttC1 (1, 2) < 36000 ∧
    (walkAgent ttC1 (some (1, 2)) 5 1 4 zeroDict zeroDict
      [1, 2, 3]).residual = none ∧
    (walkAgent ttC1 (some (1, 2)) 5 1 4 zeroDict zeroDict
      [1, 2, 3]).stop = some 3 := by
  refine ⟨by norm_num [ttC1], by norm_num [ttC1], ?_, ?_⟩ <;>
    simp [walkAgent, pathEdges, walkEdges, ttC1, zeroDict] <;> norm_num

/-! ## Capacity-restraint update (source lines 485-496) -/

/-- Round a rational to the nearest integer, ties to even (the rounding
used by `numpy`/`pandas` `.round`). -/
def roundHalfEven (x : ℚ) : ℤ :=
  if x - ⌊x⌋ < 1 / 2 then ⌊x⌋
  else if 1 / 2 < x - ⌊x⌋ then ⌊x⌋ + 1
  else if ⌊x⌋ % 2 = 0 then ⌊x⌋ else ⌊x⌋ + 1

/-- `.round(2)`: round to two decimal places, ties to even. -/
def round2 (x : ℚ) : ℚ := (roundHalfEven (x * 100) : ℚ) / 100

/-- Extrapolated true link flow for the quarter (line 485):
`vol_true * quarter_demand / assigned_demand * quarter_counts`. -/
def flowOf (vol_true quarter_demand assigned_demand quarter_counts : ℚ) :
    ℚ :=
  vol_true * quarter_demand / assigned_demand * quarter_counts

/-- The congested travel time written back by `substep_assignment`
(lines 488-496): the BPR formula, clamped at the 36000 sentinel via
`np.where`, then rounded to two decimals. -/
def tAvgUpdate (fft cap flow alpha_f : ℚ) (beta_f : ℕ) : ℚ :=
  round2 (if fft * (1 + alpha_f * (flow / cap) ^ beta_f) > 36000 then 36000
    else fft * (1 + alpha_f * (flow / cap) ^ beta_f))

/-- The restraint update applied to one edge at the end of a substep:
`t_avg` is recomputed from `vol_true`; `capacity` (and the other columns)
are carried over unchanged into `new_edges_df`. -/
def restraintUpdate (quarter_demand assigned_demand quarter_counts
    alpha_f : ℚ) (beta_f : ℕ) (e : Edge) : Edge :=
  { e with
    t_avg := tAvgUpdate e.fft e.capacity (flowOf e.vol_true quarter_demand assigned_demand quarter_counts) alpha_f beta_f }

/-- The default volume-delay coefficient `alpha_f` of
`substep_assignment` (line 357). -/
def alphaDefault : ℚ := 3 / 10

/-- `roundHalfEven` of a nonnegative rational is nonnegative. -/
theorem roundHalfEven_nonneg (x : ℚ) (hx : 0 ≤ x) : 0 ≤ roundHalfEven x := by
  have hf : (0 : ℤ) ≤ ⌊x⌋ := Int.floor_nonneg.mpr hx
  unfold roundHalfEven
  split
  · exact hf
  · split
    · omega
    · split <;> omega

/-- `roundHalfEven` never exceeds an integer upper bound of its input. -/
theorem roundHalfEven_le (x : ℚ) (n : ℤ) (hx : x ≤ n) :
    roundHalfEven x ≤ n := by
  have hf : ⌊x⌋ ≤ n := by
    have := Int.floor_le_floor hx
    simpa using this
  have hstep : 1 / 2 ≤ x - ⌊x⌋ → ⌊x⌋ + 1 ≤ n := by
    intro hr
    by_contra hlt
    push_neg at hlt
    have hfeq : ⌊x⌋ = n := by omega
    have : x ≤ (⌊x⌋ : ℚ) := by rw [hfeq]; exact_mod_cast hx
    have : x - ⌊x⌋ ≤ 0 := by linarith
    linarith
  unfold roundHalfEven
  split
  · exact hf
  · rename_i h1
    push_neg at h1
    split
    · exact hstep h1
    · split
      · exact hf
      · exact hstep h1

/-- `round2` stays within `[0, b]` for an integer-valued bound `b`. -/
theorem round2_bounds (x : ℚ) (n : ℕ) (h0 : 0 ≤ x) (hn : x ≤ n) :
    0 ≤ round2 x ∧ round2 x ≤ n := by
  have h1 : 0 ≤ roundHalfEven (x * 100) :=
    roundHalfEven_nonneg _ (by positivity)
  have h2 : roundHalfEven (x * 100) ≤ (n : ℤ) * 100 := by
    apply roundHalfEven_le
    push_cast
    nlinarith
  constructor
  · unfold round2
    positivity
  · unfold round2
    rw [div_le_iff₀ (by norm_num)]
    exact_mod_cast h2

end Transportation

namespace Transportation

/-! ## Theorems for claim C2 -/

/-- Counterexample to claim C2 as stated: with `fft = 10`,
`capacity = 1000`, `vol_true = 5`, `quarter_demand = assigned_demand
= 10`, `quarter_counts = 4`, default `alpha = 0.3`, `beta = 4`, the code
stores `t_avg = 10` (the formula value rounded to two decimals), while
the claimed identity `t_avg = fft * (1 + alpha*(flow/capacity)^beta)`
(clamped at 36000) demands `62500003/6250000 = 10.00000048`. -/
theorem restraint_rounding_counterexample :
    tAvgUpdate 10 1000 (flowOf 5 10 10 4) (3 / 10) 4 = 10 ∧
    min ((10 : ℚ) * (1 + (3 / 10) * (flowOf 5 10 10 4 / 1000) ^ 4)) 36000 =
      62500003 / 6250000 ∧
    (10 : ℚ) ≠ 62500003 / 6250000 := by
  refine ⟨?_, ?_, by norm_num⟩
  · norm_num [tAvgUpdate, flowOf, round2, roundHalfEven]
  · norm_num [flowOf]

/-- Claim C2 (amended): after a restraint update each edge's `t_avg` is
the BPR value `fft * (1 + alpha*(flow/capacity)^beta)` with
`flow = vol_true * (quarter_demand/assigned_demand) * quarter_counts`,
clamped above at the 36000 sentinel and then rounded to two decimal
places (ties to even); `capacity` is untouched, and under the load-time
invariants (`capacity ≥ 1`, nonnegative `fft`, volume, demand and
coefficients) the result satisfies `capacity ≥ 1` and
`0 ≤ t_avg ≤ 36000`. -/
theorem restraint_update_bounds (qd ad qc alpha_f : ℚ) (beta_f : ℕ)
    (e : Edge) (hcap : 1 ≤ e.capacity) (hfft : 0 ≤ e.fft)
    (halpha : 0 ≤ alpha_f) (hvol : 0 ≤ e.vol_true) (hqd : 0 ≤ qd)
    (had : 0 < ad) (hqc : 0 ≤ qc) :
    (restraintUpdate qd ad qc alpha_f beta_f e).t_avg =
      round2 (min (e.fft *
        (1 + alpha_f * (flowOf e.vol_true qd ad qc / e.capacity) ^ beta_f))
        36000) ∧
    (restraintUpdate qd ad qc alpha_f beta_f e).capacity = e.capacity ∧
    1 ≤ (restraintUpdate qd ad qc alpha_f beta_f e).capacity ∧
    0 ≤ (restraintUpdate qd ad qc alpha_f beta_f e).t_avg ∧
    (restraintUpdate qd ad qc alpha_f beta_f e).t_avg ≤ 36000 := by
  have hcap0 : (0 : ℚ) < e.capacity := lt_of_lt_of_le one_pos hcap
  have hflow : 0 ≤ flowOf e.vol_true qd ad qc := by
    unfold flowOf
    positivity
  have hraw : 0 ≤ e.fft *
      (1 + alpha_f * (flowOf e.vol_true qd ad qc / e.capacity) ^ beta_f) := by
    positivity
  have hmineq : ∀ t : ℚ, (if t > 36000 then (36000 : ℚ) else t) =
      min t 36000 := by
    intro t
    rcases le_or_lt t 36000 with h | h
    · rw [if_neg (not_lt.mpr h), min_eq_left h]
    · rw [if_pos h, min_eq_right h.le]
  have hclamp0 : 0 ≤ min (e.fft *
      (1 + alpha_f * (flowOf e.vol_true qd ad qc / e.capacity) ^ beta_f))
      36000 := le_min hraw (by norm_num)
  have hclamp1 : min (e.fft *
      (1 + alpha_f * (flowOf e.vol_true qd ad qc / e.capacity) ^ beta_f))
      36000 ≤ ((36000 : ℕ) : ℚ) := by
    exact_mod_cast min_le_right _ _
  have hb := round2_bounds _ 36000 hclamp0 hclamp1
  refine ⟨?_, rfl, hcap, ?_, ?_⟩
  · simp only [restraintUpdate, tAvgUpdate, hmineq]
  · simp only [restraintUpdate, tAvgUpdate, hmineq]
    exact hb.1
  · simp only [restraintUpdate, tAvgUpdate, hmineq]
    exact_mod_cast hb.2

/-- Witness for C2 at a concrete edge. -/
theorem restraint_update_bounds_witness :
    (1 : ℚ) ≤ 1000 ∧ (0 : ℚ) ≤ 10 ∧ (0 : ℚ) ≤ 3 / 10 ∧ (0 : ℚ) ≤ 5 ∧
    (0 : ℚ) ≤ 10 ∧ (0 : ℚ) < 10 ∧ (0 : ℚ) ≤ 4 ∧
    (0 ≤ (restraintUpdate 10 10 4 (3 / 10) 4
      { uniqueid := 0, start_nid := 0, end_nid := 1, capacity := 1000,
        normal_capacity := 1000, fft := 10, normal_fft := 10, t_avg := 10,
        vol_true := 5, vol_tot := 5, veh_current := 0 }).t_avg ∧
     (restraintUpdate 10 10 4 (3 / 10) 4
      { uniqueid := 0, start_nid := 0, end_nid := 1, capacity := 1000,
        normal_capacity := 1000, fft := 10, normal_fft := 10, t_avg := 10,
        vol_true := 5, vol_tot := 5, veh_current := 0 }).t_avg ≤ 36000) := by
  refine ⟨by norm_num, by norm_num, by norm_num, by norm_num, by norm_num,
    by norm_num, by norm_num, ?_⟩
  have h := restraint_update_bounds 10 10 4 (3 / 10) 4
    { uniqueid := 0, start_nid := 0, end_nid := 1, capacity := 1000,
      normal_capacity := 1000, fft := 10, normal_fft := 10, t_avg := 10,
      vol_true := 5, vol_tot := 5, veh_current := 0 }
    (by norm_num) (by norm_num) (by norm_num) (by norm_num) (by norm_num)
    (by norm_num) (by norm_num)
  exact ⟨h.2.2.2.1, h.2.2.2.2⟩

/-! ## Trip outcome table (source lines 602-620 and 849-897)

`assignment` first routes every OD pair on the fully-open network minus
the closure set; rows with an empty path become `od_no_path` and are
dropped from `od_all`.  `trip_info` is a dictionary comprehension over
the remaining rows keyed by `(agent_id, origin_nid, destin_nid)` — rows
sharing a key collapse to a single entry, and the substep loop only
mutates values of existing keys.  At the end the dictionary's rows are
emitted, followed by one sentinel row per `od_no_path` row. -/

/-- The key list of a Python dictionary built by inserting keys in order:
each key once, in first-occurrence order. -/
def distinctKeys {α : Type} [DecidableEq α] : List α → List α
  | [] => []
  | k :: rest => k :: (distinctKeys rest).filter (fun x => x ≠ k)

/-- A row of the final `trip_info_df`. -/
structure TripOutcome where
  agent_id : Nat
  origin_nid : Nat
  destin_nid : Nat
  travel_time : ℚ
  travel_time_used : Option ℚ
  stop_nid : Option Nat
  stop_hour : Option Nat
  stop_quarter : Option Nat
  stop_ssid : Option Nat
  deriving DecidableEq, Repr

/-- The sentinel outcome row appended at finalisation for a trip that
never had a feasible path (lines 877-889): `travel_time = 360000`, all
other outcome fields null. -/
def noPathRow (od : ODRow) : TripOutcome :=
  { agent_id := od.agent_id, origin_nid := od.origin_nid,
    destin_nid := od.destin_nid, travel_time := 360000,
    travel_time_used := none, stop_nid := none, stop_hour := none,
    stop_quarter := none, stop_ssid := none }

/-- The final trip table: the rows of the `trip_info` dictionary followed
by the sentinel rows of the no-path trips (lines 890-892). -/
def finalTripTable (tripInfoRows : List TripOutcome)
    (od_no_path : List ODRow) : List TripOutcome :=
  tripInfoRows ++ od_no_path.map noPathRow

/-- The key multiset of the final trip table, as determined by the code:
the `trip_info` dictionary keys (duplicates collapsed at construction,
line 608, and never added to afterwards) followed by the no-path keys. -/
def finalTripKeys (od_all : List ODRow) (hasPath : ODRow → Bool) :
    List TripKey :=
  distinctKeys ((od_all.filter hasPath).map tripKey) ++
    ((od_all.filter (fun od => ! hasPath od)).map tripKey)

/-- Each key occurs in `distinctKeys l` once if it occurs in `l`, else
not at all. -/
theorem count_distinctKeys {α : Type} [DecidableEq α] (k : α)
    (l : List α) :
    (distinctKeys l).count k = if k ∈ l then 1 else 0 := by
  induction l with
  | nil => simp [distinctKeys]
  | cons a rest ih =>
    have hz : ∀ b : α, ((distinctKeys rest).filter
        (fun x => x ≠ b)).count b = 0 := by
      intro b
      rw [List.count_eq_zero]
      intro hmem
      have h2 := (List.mem_filter.mp hmem).2
      simp at h2
    by_cases hk : k = a
    · subst hk
      rw [show distinctKeys (k :: rest) =
        k :: (distinctKeys rest).filter (fun x => x ≠ k) from rfl]
      rw [List.count_cons_self, hz k]
      simp
    · have hcnt : ((distinctKeys rest).filter (fun x => x ≠ a)).count k =
          (distinctKeys rest).count k := by
        apply List.count_filter
        simp [hk]
      simp [distinctKeys, List.count_cons, hcnt, ih, Ne.symm hk, hk]

/-- Counting a key through a complementary filter pair partitions its
count in the whole list. -/
theorem count_map_filter_partition {α β : Type} [DecidableEq β]
    (f : α → β) (p : α → Bool) (k : β) (l : List α) :
    ((l.filter p).map f).count k +
      ((l.filter (fun x => ! p x)).map f).count k = (l.map f).count k := by
  induction l with
  | nil => simp
  | cons a t ih =>
    by_cases hp : p a <;> by_cases hf : f a = k <;>
      simp [hp, hf, List.count_cons, ← ih] <;> omega

end Transportation

namespace Transportation

/-! ## Theorems for claim C3 -/

/-- Counterexample to claim C3 as stated: the OD table holds two distinct
trips (agent 7, node 1 → node 2, departing hours 6 and 7) that share the
trip key `(7, 1, 2)`; both are routable, yet the final table contains
exactly one row with that key — the second trip overwrites the first in
the `trip_info` dictionary, so the two trips do not each appear once. -/
theorem trip_table_duplicate_key_counterexample :
    (⟨7, 1, 2, 6, 0⟩ : ODRow) ≠ (⟨7, 1, 2, 7, 0⟩ : ODRow) ∧
    tripKey (⟨7, 1, 2, 6, 0⟩ : ODRow) = tripKey (⟨7, 1, 2, 7, 0⟩ : ODRow) ∧
    (finalTripKeys [⟨7, 1, 2, 6, 0⟩, ⟨7, 1, 2, 7, 0⟩]
      (fun _ => true)).count ⟨7, 1, 2⟩ = 1 := by
  refine ⟨by decide, by decide, by decide⟩

/-- Claim C3 (amended): every trip whose
`(agent_id, origin_nid, destin_nid)` key is distinct from all other
trips' keys appears exactly once in the final outcome table — as a
routed entry or as a no-path entry, never zero times and never more
than once — even when other trips of the table share keys among
themselves; and of `n ≥ 1` trips sharing one key, all routed (as they
always are in the code, routability being a function of origin and
destination), exactly one row with that key appears. -/
theorem trip_table_unique_keys (od_all : List ODRow)
    (hasPath : ODRow → Bool) (od : ODRow) (hmem : od ∈ od_all) :
    ((od_all.map tripKey).count (tripKey od) = 1 →
      (finalTripKeys od_all hasPath).count (tripKey od) = 1) ∧
    ((∀ od' ∈ od_all, tripKey od' = tripKey od → hasPath od' = true) →
      (finalTripKeys od_all hasPath).count (tripKey od) = 1) := by
  have hpart := count_map_filter_partition tripKey hasPath (tripKey od) od_all
  constructor
  · intro htot
    rw [finalTripKeys, List.count_append,
      count_distinctKeys (tripKey od) ((od_all.filter hasPath).map tripKey)]
    by_cases hp : hasPath od
    · have hin : tripKey od ∈ (od_all.filter hasPath).map tripKey :=
        List.mem_map_of_mem tripKey (List.mem_filter.mpr ⟨hmem, hp⟩)
      have h1 : 1 ≤ ((od_all.filter hasPath).map tripKey).count
          (tripKey od) :=
        List.one_le_count_iff.mpr hin
      rw [if_pos hin]
      omega
    · have hin : tripKey od ∈ (od_all.filter (fun x => ! hasPath x)).map
          tripKey := by
        refine List.mem_map_of_mem tripKey (List.mem_filter.mpr ⟨hmem, ?_⟩)
        simp [hp]
      have h1 : 1 ≤ ((od_all.filter (fun x => ! hasPath x)).map
          tripKey).count (tripKey od) :=
        List.one_le_count_iff.mpr hin
      have hnotin : tripKey od ∉ (od_all.filter hasPath).map tripKey := by
        intro hc
        have h2 : 1 ≤ ((od_all.filter hasPath).map tripKey).count
            (tripKey od) :=
          List.one_le_count_iff.mpr hc
        omega
      rw [if_neg hnotin]
      omega
  · intro hkey
    rw [finalTripKeys, List.count_append,
      count_distinctKeys (tripKey od) ((od_all.filter hasPath).map tripKey)]
    have hp : hasPath od = true := hkey od hmem rfl
    have hin : tripKey od ∈ (od_all.filter hasPath).map tripKey :=
      List.mem_map_of_mem tripKey (List.mem_filter.mpr ⟨hmem, hp⟩)
    have hz : ((od_all.filter (fun x => ! hasPath x)).map tripKey).count
        (tripKey od) = 0 := by
      rw [List.count_eq_zero]
      intro hc
      rcases List.mem_map.mp hc with ⟨od', hod', hkeq⟩
      have hf := List.mem_filter.mp hod'
      have hfalse := hf.2
      rw [hkey od' hf.1 hkeq] at hfalse
      exact absurd hfalse (by decide)
    rw [if_pos hin, hz]

/-- Witness for C3 on a table mixing a shared key (agent 7, node 1 →
node 2, hours 6 and 7) with a unique key (agent 8): the unique-key trip
appears exactly once, and the two same-key routed trips produce exactly
one row. -/
theorem trip_table_unique_keys_witness :
    (⟨8, 3, 4, 6, 0⟩ : ODRow) ∈
      ([⟨7, 1, 2, 6, 0⟩, ⟨7, 1, 2, 7, 0⟩, ⟨8, 3, 4, 6, 0⟩] :
        List ODRow) ∧
    (([⟨7, 1, 2, 6, 0⟩, ⟨7, 1, 2, 7, 0⟩, ⟨8, 3, 4, 6, 0⟩] :
        List ODRow).map tripKey).count (tripKey ⟨8, 3, 4, 6, 0⟩) = 1 ∧
    (finalTripKeys [⟨7, 1, 2, 6, 0⟩, ⟨7, 1, 2, 7, 0⟩, ⟨8, 3, 4, 6, 0⟩]
      (fun _ => true)).count (tripKey ⟨8, 3, 4, 6, 0⟩) = 1 ∧
    ((⟨7, 1, 2, 6, 0⟩ : ODRow) ∈
      ([⟨7, 1, 2, 6, 0⟩, ⟨7, 1, 2, 7, 0⟩, ⟨8, 3, 4, 6, 0⟩] :
        List ODRow) ∧
    (∀ od' ∈ ([⟨7, 1, 2, 6, 0⟩, ⟨7, 1, 2, 7, 0⟩, ⟨8, 3, 4, 6, 0⟩] :
        List ODRow), tripKey od' = tripKey ⟨7, 1, 2, 6, 0⟩ →
        (fun _ => true : ODRow → Bool) od' = true) ∧
    (finalTripKeys [⟨7, 1, 2, 6, 0⟩, ⟨7, 1, 2, 7, 0⟩, ⟨8, 3, 4, 6, 0⟩]
      (fun _ => true)).count (tripKey ⟨7, 1, 2, 6, 0⟩) = 1) := by
  refine ⟨by decide, by decide, ?_, by decide, by decide, ?_⟩
  · exact (trip_table_unique_keys
      [⟨7, 1, 2, 6, 0⟩, ⟨7, 1, 2, 7, 0⟩, ⟨8, 3, 4, 6, 0⟩]
      (fun _ => true) ⟨8, 3, 4, 6, 0⟩ (by decide)).1 (by decide)
  · exact (trip_table_unique_keys
      [⟨7, 1, 2, 6, 0⟩, ⟨7, 1, 2, 7, 0⟩, ⟨8, 3, 4, 6, 0⟩]
      (fun _ => true) ⟨7, 1, 2, 6, 0⟩ (by decide)).2 (by decide)

/-! ## Theorems for claim C5 -/

/-- Claim C5: a trip with no feasible path under the current closure
state is excluded from the iterated OD set, and the final table contains
a sentinel row for it with `travel_time = 360000` and null
`travel_time_used`, `stop_nid`, `stop_hour`, `stop_quarter`,
`stop_ssid`. -/
theorem no_path_trip_outcome (od_all : List ODRow)
    (hasPath : ODRow → Bool) (tripInfoRows : List TripOutcome)
    (od : ODRow) (hmem : od ∈ od_all) (hnp : hasPath od = false) :
    od ∉ od_all.filter hasPath ∧
    ∃ row ∈ finalTripTable tripInfoRows
        (od_all.filter (fun x => ! hasPath x)),
      row.agent_id = od.agent_id ∧ row.origin_nid = od.origin_nid ∧
      row.destin_nid = od.destin_nid ∧ row.travel_time = 360000 ∧
      row.travel_time_used = none ∧ row.stop_nid = none ∧
      row.stop_hour = none ∧ row.stop_quarter = none ∧
      row.stop_ssid = none := by
  constructor
  · intro hc
    have := (List.mem_filter.mp hc).2
    rw [hnp] at this
    exact absurd this (by decide)
  · refine ⟨noPathRow od, ?_, rfl, rfl, rfl, rfl, rfl, rfl, rfl, rfl, rfl⟩
    unfold finalTripTable
    refine List.mem_append_right _ (List.mem_map_of_mem noPathRow ?_)
    exact List.mem_filter.mpr ⟨hmem, by simp [hnp]⟩

/-- Witness for C5 on a concrete OD table with one unroutable trip. -/
theorem no_path_trip_outcome_witness :
    (⟨9, 5, 6, 6, 0⟩ : ODRow) ∈
      ([⟨7, 1, 2, 6, 0⟩, ⟨9, 5, 6, 6, 0⟩] : List ODRow) ∧
    ((fun od => od.agent_id = 7 : ODRow → Bool) ⟨9, 5, 6, 6, 0⟩ = false) ∧
    ((⟨9, 5, 6, 6, 0⟩ : ODRow) ∉
      ([⟨7, 1, 2, 6, 0⟩, ⟨9, 5, 6, 6, 0⟩] : List ODRow).filter
        (fun od => od.agent_id = 7) ∧
    ∃ row ∈ finalTripTable []
        (([⟨7, 1, 2, 6, 0⟩, ⟨9, 5, 6, 6, 0⟩] : List ODRow).filter
          (fun x => ! (fun od => od.agent_id = 7 : ODRow → Bool) x)),
      row.agent_id = (⟨9, 5, 6, 6, 0⟩ : ODRow).agent_id ∧
      row.origin_nid = (⟨9, 5, 6, 6, 0⟩ : ODRow).origin_nid ∧
      row.destin_nid = (⟨9, 5, 6, 6, 0⟩ : ODRow).destin_nid ∧
      row.travel_time = 360000 ∧
      row.travel_time_used = none ∧ row.stop_nid = none ∧
      row.stop_hour = none ∧ row.stop_quarter = none ∧
      row.stop_ssid = none) := by
  refine ⟨by decide, by decide, ?_⟩
  exact no_path_trip_outcome _ _ [] _ (by decide) (by decide)

/-! ## Randomness interface of `assignment` (source lines 565-584,
664-667, 727-730) -/

/-- The keyword parameters of the engine entry point `assignment`
(source lines 565-584), in source order. -/
def assignmentParams : List String :=
  ["quarter_counts", "substep_counts", "substep_size", "edges_df",
   "nodes_df", "od_all", "simulation_outputs", "scen_nm", "hour_list",
   "quarter_list", "cost_factor", "closure_hours", "closed_links",
   "agent_time_limit", "sample_interval", "agents_path", "alpha_f",
   "beta_f"]

/-- The per-row division mask drawn by
`np.random.choice(ids, size=n, p=uniform)` from the implicit global
generator, modelled as a stream of naturals consumed positionally:
row `i` is assigned division `stream i % idCount`. -/
def uniformChoiceMask (stream : ℕ → ℕ) (idCount n : ℕ) : List ℕ :=
  (List.range n).map (fun i => stream i % idCount)

/-! ## Network load (source lines 940-954) -/

/-- `fft = length / maxspeed * 2.23694` (line 940). -/
def fftOf (e : RawEdge) : ℚ := e.length / e.maxspeed * (223694 / 100000)

/-- `drop_duplicates(subset=['start_nid', 'end_nid'], keep='first')`:
keep the first row of each `(start_nid, end_nid)` key (line 941-943,
applied after the descending stable sort on `fft`). -/
def dropDupKeys : List RawEdge → List RawEdge
  | [] => []
  | e :: rest =>
    e :: dropDupKeys (rest.filter
      (fun x => !(x.start_nid == e.start_nid && x.end_nid == e.end_nid)))
  termination_by l => l.length
  decreasing_by
    simp only [List.length_cons]
    exact Nat.lt_succ_of_le (List.length_filter_le _ _)

/-- Load-time edge processing of `system_performance` (lines 940-954):
compute `fft`, resolve duplicate `(start_nid, end_nid)` keys by keeping
the row with the largest `fft` (stable descending sort followed by
drop-duplicates-keep-first), clamp capacities below 1 to 950, and
initialise the `normal_*` and `t_avg` columns.  The node table is never
consulted and no error path exists. -/
def loadNetwork (edges : List RawEdge) : List Edge :=
  (dropDupKeys (edges.mergeSort
      (fun a b => decide (fftOf b ≤ fftOf a)))).map
    (fun e =>
      { uniqueid := e.uniqueid, start_nid := e.start_nid,
        end_nid := e.end_nid,
        capacity := if e.capacity < 1 then 950 else e.capacity,
        normal_capacity := if e.capacity < 1 then 950 else e.capacity,
        fft := fftOf e, normal_fft := fftOf e, t_avg := fftOf e,
        vol_true := 0, vol_tot := 0, veh_current := 0 })

/-- The referential-integrity predicate the specification expects load to
enforce: every edge endpoint occurs in the node table. -/
def edgesReferenceNodes (edges : List RawEdge) (nodes : List Node) :
    Bool :=
  edges.all (fun e =>
    nodes.any (fun n => n.node_id == e.start_nid) &&
    nodes.any (fun n => n.node_id == e.end_nid))

/-! ## Per-agent processing in the `for path in paths` loop
(source lines 403-457) -/

/-- One agent's row of `od_ss` together with its routed path. -/
structure AgentSS where
  agent_id : Nat
  origin_nid : Nat
  destin_nid : Nat
  path : List Nat
  current_link : Option (Nat × Nat)
  current_link_time : ℚ

/-- The `trip_info` mutation performed at lines 449-456:
`travel_time += 3600/quarter_counts`, `travel_time_used += used_time`,
`stop_nid = trip_stop`.  `stop = none` models the Python local
`trip_stop` being unbound (an `UnboundLocalError`) because no edge was
walked by this or any earlier agent of the batch. -/
structure TripUpdate where
  key : TripKey
  elapsed_delta : ℚ
  used_delta : ℚ
  stop : Option Nat
  deriving DecidableEq, Repr

/-- A row of `od_residual_ss_list`. -/
structure ResidualRow where
  key : TripKey
  res : Residual
  deriving DecidableEq, Repr

/-- The state threaded through the `for path in paths` loop: the edge
dictionaries, the leftover value of the Python local `trip_stop`, the
residual list and the trip-info updates made so far. -/
structure SubstepState where
  vol : Nat × Nat → ℚ
  veh : Nat × Nat → ℚ
  lastStop : Option Nat
  residuals : List ResidualRow
  updates : List TripUpdate

/-- Process one agent of the batch (lines 403-457): agents on the
time-limit `remove_agent_list` are skipped without a trip-info update;
otherwise the path is walked, the agent is appended to the residual list
if it stopped mid-path, and its trip-info entry is updated — with
`trip_stop` keeping its value from earlier iterations when no edge was
walked. -/
def processAgent (removeList : List Nat) (tt : Nat × Nat → ℚ)
    (si qc : ℚ) (st : SubstepState) (a : AgentSS) : SubstepState :=
  if a.agent_id ∈ removeList then st
  else
    { vol := (walkAgent tt a.current_link a.current_link_time si qc
        st.vol st.veh a.path).vol
      veh := (walkAgent tt a.current_link a.current_link_time si qc
        st.vol st.veh a.path).veh
      lastStop := match (walkAgent tt a.current_link a.current_link_time
          si qc st.vol st.veh a.path).stop with
        | some s => some s
        | none => st.lastStop
      residuals := st.residuals ++
        (match (walkAgent tt a.current_link a.current_link_time si qc
            st.vol st.veh a.path).residual with
         | some r => [⟨⟨a.agent_id, a.origin_nid, a.destin_nid⟩, r⟩]
         | none => [])
      updates := st.updates ++
        [⟨⟨a.agent_id, a.origin_nid, a.destin_nid⟩, 3600 / qc,
          (walkAgent tt a.current_link a.current_link_time si qc
            st.vol st.veh a.path).used,
          match (walkAgent tt a.current_link a.current_link_time si qc
              st.vol st.veh a.path).stop with
          | some s => some s
          | none => st.lastStop⟩] }

/-! ## Substep skipping in the quarter loop (source lines 735-746) -/

/-- The `assigned_demand` accounting of the substep loop: starting from
`assigned`, add each substep's batch size in turn; a substep reached
with cumulative assigned demand still zero is skipped (`continue`),
otherwise `substep_assignment` is called with the current value.
Returns the `assigned_demand` values of the calls actually made. -/
def substepCalls (assigned : ℕ) : List ℕ → List ℕ
  | [] => []
  | n :: rest =>
    if assigned + n = 0 then substepCalls (assigned + n) rest
    else (assigned + n) :: substepCalls (assigned + n) rest

/-! ## Volume outputs (source lines 500-563) -/

/-- `write_edge_vol`: networks with fewer than 10 edges are written in
full; otherwise only rows with `vol_true > 0` (lines 508-547). -/
def writeEdgeVol (edges : List Edge) : List Edge :=
  if edges.length < 10 then edges
  else edges.filter (fun e => decide (0 < e.vol_true))

/-- `write_final_vol`: only rows with `vol_tot > 0` (lines 556-563). -/
def writeFinalVol (edges : List Edge) : List Edge :=
  edges.filter (fun e => decide (0 < e.vol_tot))

/-! ## Theorems for claim C4 -/

/-- Claim C4: during a closure hour every edge of the closure set has
`capacity = 1` and `fft = 36000`; during a non-closure hour every edge is
restored to `normal_capacity` / `normal_fft`. -/
theorem closure_hours_edge_state (closureHours closedIds : List Nat)
    (hour : Nat) (edges : List Edge) :
    (hour ∈ closureHours →
      ∀ e ∈ hourEdgeUpdate closureHours closedIds hour edges,
        e.uniqueid ∈ closedIds → e.capacity = 1 ∧ e.fft = 36000) ∧
    (hour ∉ closureHours →
      ∀ e ∈ hourEdgeUpdate closureHours closedIds hour edges,
        e.capacity = e.normal_capacity ∧ e.fft = e.normal_fft) := by
  constructor
  · intro hc e he hid
    unfold hourEdgeUpdate at he
    rw [if_pos hc] at he
    rcases List.mem_map.mp he with ⟨e0, _, rfl⟩
    unfold applyClosure at hid ⊢
    by_cases h0 : e0.uniqueid ∈ closedIds
    · simp [h0]
    · rw [if_neg h0] at hid
      exact absurd hid h0
  · intro hc e he
    unfold hourEdgeUpdate at he
    rw [if_neg hc] at he
    rcases List.mem_map.mp he with ⟨e0, _, rfl⟩
    exact ⟨rfl, rfl⟩

/-- Witness for C4 at a concrete closure table and hour. -/
theorem closure_hours_edge_state_witness :
    (6 : Nat) ∈ [6, 7, 8] ∧
    ∀ e ∈ hourEdgeUpdate [6, 7, 8] [11]
        6 [{ uniqueid := 11, start_nid := 0, end_nid := 1, capacity := 950,
             normal_capacity := 950, fft := 12, normal_fft := 12,
             t_avg := 12, vol_true := 0, vol_tot := 0, veh_current := 0 }],
      e.uniqueid ∈ [11] → e.capacity = 1 ∧ e.fft = 36000 := by
  refine ⟨by decide, ?_⟩
  exact (closure_hours_edge_state [6, 7, 8] [11] 6 _).1 (by decide)

/-! ## Theorems for claim C6 -/

/-- Counterexample to claim C6 as stated: the engine entry point
`assignment` has no random-source parameter — no `seed`, `rng`,
`random_seed` or `random_state` appears among its keyword parameters;
the quarter and substep partitions are drawn from `np.random.choice`,
the implicit global generator. -/
theorem assignment_no_rng_param_counterexample :
    "seed" ∉ assignmentParams ∧ "rng" ∉ assignmentParams ∧
    "random_seed" ∉ assignmentParams ∧
    "random_state" ∉ assignmentParams := by
  refine ⟨by decide, by decide, by decide, by decide⟩

/-- Claim C6 (amended): the engine exposes no seedable random source —
its parameter list contains no seed/rng entry — and partitioning draws
from the implicit global numpy generator; reproducibility therefore
holds only relative to the global generator state: two runs whose global
random streams agree and whose OD inputs have the same size draw
bit-identical quarter/substep masks. -/
theorem assignment_rng_determinism (stream1 stream2 : ℕ → ℕ)
    (idCount n m : ℕ) (hs : ∀ i, stream1 i = stream2 i) (hnm : n = m) :
    "seed" ∉ assignmentParams ∧ "rng" ∉ assignmentParams ∧
    uniformChoiceMask stream1 idCount n =
      uniformChoiceMask stream2 idCount m := by
  refine ⟨by decide, by decide, ?_⟩
  subst hnm
  unfold uniformChoiceMask
  exact List.map_congr_left (fun i _ => by rw [hs i])

/-- Witness for C6 with two definitionally equal streams. -/
theorem assignment_rng_determinism_witness :
    (∀ i : ℕ, i + 1 = 1 + i) ∧ (3 : ℕ) = 3 ∧
    ("seed" ∉ assignmentParams ∧ "rng" ∉ assignmentParams ∧
      uniformChoiceMask (fun i => i + 1) 4 3 =
        uniformChoiceMask (fun i => 1 + i) 4 3) := by
  refine ⟨fun i => Nat.add_comm i 1, rfl, ?_⟩
  exact assignment_rng_determinism (fun i => i + 1) (fun i => 1 + i) 4 3 3
    (fun i => Nat.add_comm i 1) rfl

/-! ## Theorems for claim C7 -/

/-- The C7 input edge table: a single edge referencing node 5, absent
from the node table. -/
def danglingEdges : List RawEdge :=
  [{ uniqueid := 1, start_nid := 5, end_nid := 6, length := 100,
     maxspeed := 30, capacity := 800 }]

/-- The C7 node table: only node 6. -/
def nodesOnly6 : List Node := [{ node_id := 6, lon := 0, lat := 0 }]

/-- Counterexample to claim C7 as stated: the edge table references node
5, which is absent from the node table, yet network load succeeds — it
produces the dangling edge instead of failing (there is no
`ReferentialIntegrityError` or any other error path in the load code). -/
theorem load_no_validation_counterexample :
    edgesReferenceNodes danglingEdges nodesOnly6 = false ∧
    ∃ e ∈ loadNetwork danglingEdges,
      e.start_nid = 5 ∧ e.end_nid = 6 := by
  constructor
  · decide
  · refine ⟨loadNetwork danglingEdges |>.head (by
      simp [loadNetwork, danglingEdges, List.mergeSort_singleton,
        dropDupKeys]), ?_, ?_, ?_⟩ <;>
      simp [loadNetwork, danglingEdges, List.mergeSort_singleton,
        dropDupKeys]

/-- Every `(start_nid, end_nid)` key of the input survives
drop-duplicates. -/
theorem dropDupKeys_covers (l : List RawEdge) :
    ∀ x ∈ l, ∃ y ∈ dropDupKeys l,
      y.start_nid = x.start_nid ∧ y.end_nid = x.end_nid := by
  induction l using dropDupKeys.induct with
  | case1 =>
    intro x hx
    cases hx
  | case2 e rest ih =>
    intro x hx
    rw [dropDupKeys]
    rcases List.mem_cons.mp hx with rfl | hxr
    · exact ⟨x, List.mem_cons_self _ _, rfl, rfl⟩
    · by_cases hk : x.start_nid = e.start_nid ∧ x.end_nid = e.end_nid
      · exact ⟨e, List.mem_cons_self _ _, hk.1.symm ▸ rfl, hk.2.symm ▸ rfl⟩
      · have hxf : x ∈ rest.filter
            (fun y => !(y.start_nid == e.start_nid &&
              y.end_nid == e.end_nid)) := by
          refine List.mem_filter.mpr ⟨hxr, ?_⟩
          simp only [Bool.not_eq_eq_eq_not, Bool.not_true, Bool.and_eq_false_imp]
          simp only [beq_iff_eq]
          intro h1
          rcases Decidable.em (x.end_nid = e.end_nid) with h2 | h2
          · exact absurd ⟨h1, h2⟩ hk
          · simp [h2]
        rcases ih x hxf with ⟨y, hy, hks⟩
        exact ⟨y, List.mem_cons_of_mem _ hy, hks⟩

/-- Claim C7 (amended): network load performs no referential-integrity
validation and cannot fail: whatever the node table, every
`(start_nid, end_nid)` key of the input edge table — dangling or not —
appears in the loaded network and is handed to the router. -/
theorem load_preserves_edge_keys (edges : List RawEdge)
    (x : RawEdge) (hx : x ∈ edges) :
    ∃ e ∈ loadNetwork edges,
      e.start_nid = x.start_nid ∧ e.end_nid = x.end_nid := by
  have hmem : x ∈ edges.mergeSort (fun a b => decide (fftOf b ≤ fftOf a)) :=
    List.mem_mergeSort.mpr hx
  rcases dropDupKeys_covers _ x hmem with ⟨y, hy, hk1, hk2⟩
  refine ⟨_, List.mem_map_of_mem _ hy, hk1, hk2⟩

/-- Witness for C7 on a concrete edge table. -/
theorem load_preserves_edge_keys_witness :
    ({ uniqueid := 1, start_nid := 5, end_nid := 6, length := 100,
       maxspeed := 30, capacity := 800 } : RawEdge) ∈ danglingEdges ∧
    ∃ e ∈ loadNetwork danglingEdges,
      e.start_nid =
        ({ uniqueid := 1, start_nid := 5, end_nid := 6, length := 100,
           maxspeed := 30, capacity := 800 } : RawEdge).start_nid ∧
      e.end_nid =
        ({ uniqueid := 1, start_nid := 5, end_nid := 6, length := 100,
           maxspeed := 30, capacity := 800 } : RawEdge).end_nid := by
  refine ⟨by decide, ?_⟩
  exact load_preserves_edge_keys danglingEdges _ (by decide)

/-! ## Theorems for claim C8 -/

/-- Claim C8: an agent whose shortest-path query returned an empty path
(and that is not on the time-limit remove list) still gets the
quarter-slice `3600/quarter_counts` added to its elapsed time, has as
stop node whatever the previous agent's walk left in the Python local
`trip_stop` (`none` — an unbound-local error — when no earlier agent of
the batch walked an edge), adds nothing to the residual list, and is
recorded with no no-path sentinel: it silently leaves iteration. -/
theorem empty_path_agent_vanishes (removeList : List Nat)
    (tt : Nat × Nat → ℚ) (si qc : ℚ) (st : SubstepState) (a : AgentSS)
    (hrm : a.agent_id ∉ removeList) (hpath : pathEdges a.path = []) :
    (processAgent removeList tt si qc st a).updates =
      st.updates ++
        [⟨⟨a.agent_id, a.origin_nid, a.destin_nid⟩, 3600 / qc, 0,
          st.lastStop⟩] ∧
    (processAgent removeList tt si qc st a).residuals = st.residuals ∧
    (st.lastStop = none →
      (processAgent removeList tt si qc st a).updates =
        st.updates ++
          [⟨⟨a.agent_id, a.origin_nid, a.destin_nid⟩, 3600 / qc, 0,
            none⟩]) := by
  have hwalk : walkAgent tt a.current_link a.current_link_time si qc
      st.vol st.veh a.path =
      { remaining := 3600 / qc + a.current_link_time, used := 0,
        vol := st.vol, veh := st.veh, stop := none, residual := none } := by
    unfold walkAgent
    rw [hpath]
    rfl
  refine ⟨?_, ?_, ?_⟩
  · unfold processAgent
    rw [if_neg hrm, hwalk]
  · unfold processAgent
    rw [if_neg hrm, hwalk]
    simp
  · intro hnone
    unfold processAgent
    rw [if_neg hrm, hwalk, hnone]

/-- Witness for C8: the first agent of a batch with an unreachable
destination. -/
theorem empty_path_agent_vanishes_witness :
    (3 : Nat) ∉ ([] : List Nat) ∧
    pathEdges ([] : List Nat) = [] ∧
    (processAgent [] ttC1 1 4
      { vol := zeroDict, veh := zeroDict, lastStop := none,
        residuals := [], updates := [] }
      { agent_id := 3, origin_nid := 1, destin_nid := 9, path := [],
        current_link := none, current_link_time := 0 }).updates =
      [] ++ [⟨⟨3, 1, 9⟩, 3600 / 4, 0, none⟩] := by
  refine ⟨by decide, by decide, ?_⟩
  exact (empty_path_agent_vanishes [] ttC1 1 4
    { vol := zeroDict, veh := zeroDict, lastStop := none,
      residuals := [], updates := [] }
    { agent_id := 3, origin_nid := 1, destin_nid := 9, path := [],
      current_link := none, current_link_time := 0 }
    (by decide) (by decide)).1

/-! ## Theorems for claim C9 -/

/-- Every `assigned_demand` value passed to `substep_assignment` is at
least one, for any starting accumulator. -/
theorem substepCalls_pos (sizes : List ℕ) :
    ∀ assigned : ℕ, ∀ d ∈ substepCalls assigned sizes, 1 ≤ d := by
  induction sizes with
  | nil =>
    intro assigned d hd
    cases hd
  | cons n rest ih =>
    intro assigned d hd
    unfold substepCalls at hd
    by_cases hz : assigned + n = 0
    · rw [if_pos hz] at hd
      exact ih _ d hd
    · rw [if_neg hz] at hd
      rcases List.mem_cons.mp hd with rfl | hd'
      · omega
      · exact ih _ d hd'

/-- Claim C9: in the quarter loop, a substep reached while the cumulative
assigned demand is still zero is skipped before `substep_assignment` is
invoked, so every call to `substep_assignment` has
`assigned_demand ≥ 1`. -/
theorem substep_assignment_demand_positive (sizes : List ℕ) (d : ℕ)
    (hd : d ∈ substepCalls 0 sizes) : 1 ≤ d :=
  substepCalls_pos sizes 0 d hd

/-- Witness for C9: three substeps of sizes 0, 2, 0 make calls with
assigned demand 2 and 2 only. -/
theorem substep_assignment_demand_positive_witness :
    (2 : ℕ) ∈ substepCalls 0 [0, 2, 0] ∧ 1 ≤ (2 : ℕ) := by
  refine ⟨by decide, ?_⟩
  exact substep_assignment_demand_positive [0, 2, 0] 2 (by decide)

/-! ## Theorems for claim C10 -/

/-- Claim C10: for networks with at least 10 edges the per-quarter
volume snapshot holds exactly the rows with `vol_true > 0`, and the
final cumulative table holds exactly the rows with `vol_tot > 0`; an
edge never traversed (volume 0) is absent from these outputs. -/
theorem volume_outputs_filtered (edges : List Edge) :
    (10 ≤ edges.length → ∀ e ∈ writeEdgeVol edges, 0 < e.vol_true) ∧
    (∀ e ∈ writeFinalVol edges, 0 < e.vol_tot) ∧
    (∀ e : Edge, 10 ≤ edges.length → e.vol_true = 0 →
      e ∉ writeEdgeVol edges) ∧
    (∀ e : Edge, e.vol_tot = 0 → e ∉ writeFinalVol edges) := by
  have hnotlt : 10 ≤ edges.length → ¬(edges.length < 10) := by omega
  refine ⟨?_, ?_, ?_, ?_⟩
  · intro hlen e he
    unfold writeEdgeVol at he
    rw [if_neg (hnotlt hlen)] at he
    have := (List.mem_filter.mp he).2
    simpa using this
  · intro e he
    have := (List.mem_filter.mp he).2
    simpa using this
  · intro e hlen hv hc
    unfold writeEdgeVol at hc
    rw [if_neg (hnotlt hlen)] at hc
    have := (List.mem_filter.mp hc).2
    rw [hv] at this
    simp at this
  · intro e hv hc
    have := (List.mem_filter.mp hc).2
    rw [hv] at this
    simp at this

/-- The concrete zero-volume edge for the C10 witness. -/
def edgeZeroVol : Edge :=
  { uniqueid := 0, start_nid := 0, end_nid := 1, capacity := 950,
    normal_capacity := 950, fft := 12, normal_fft := 12, t_avg := 12,
    vol_true := 0, vol_tot := 0, veh_current := 0 }

/-- Witness for C10: a 10-edge network of untraversed edges yields an
empty snapshot. -/
theorem volume_outputs_filtered_witness :
    10 ≤ (List.replicate 10 edgeZeroVol).length ∧
    edgeZeroVol.vol_true = 0 ∧
    edgeZeroVol ∉ writeEdgeVol (List.replicate 10 edgeZeroVol) := by
  refine ⟨by decide, rfl, ?_⟩
  exact (volume_outputs_filtered
    (List.replicate 10 edgeZeroVol)).2.2.1 edgeZeroVol
    (by decide) rfl

end Transportation
